import Mathlib

/-
Verification of `scripts/save-backup-data.py`.

The script is a single linear pass:
  backup_dir = Path(__file__).parent.parent / "backup"
  backup_dir.mkdir(exist_ok=True)
  tables = [ ... 22 names ... ]
  for table in tables:
      file_path = backup_dir / f"<table>.json"
      if not file_path.exists():
          with open(file_path, 'w', encoding='utf-8') as f:
              json.dump([], f, indent=2)

We model the backup directory as a map from file names to file contents
(`Dir`), and the whole filesystem state relevant to the script as an
`Option Dir` (`none` when the backup directory does not exist yet).  The
`print` calls are informational only and are not modelled.  For the
error-handling claims we add a variant of the run in which directory
creation and each individual file write may fail, mirroring how an OS-level
failure raises an unhandled exception that aborts the Python script at that
exact point.
-/

namespace SaveBackupData

/-- Contents of the backup directory: each file name maps to the file's
content when that file exists, `none` otherwise. -/
def Dir : Type := String → Option String

/-- The hardcoded list `tables` of the script (lines 14-37), in declared
order. -/
def tables : List String :=
  ["products",
   "inventory_movements",
   "product_stock_by_warehouse",
   "product_locations",
   "product_batches",
   "product_qr_assets",
   "product_label_assets",
   "profiles",
   "suppliers",
   "product_suppliers",
   "audit_logs",
   "user_settings",
   "user_login_events",
   "app_settings",
   "ai_suggestions",
   "ai_prediction_cache",
   "chat_rooms",
   "chat_messages",
   "batch_defect_reports",
   "product_modification_history",
   "scanner_users",
   "user_permissions"]

/-- The name of the placeholder file for a table: `f"<table>.json"`
(line 41). -/
def fileName (table : String) : String := table ++ ".json"

/-- The exact text `json.dump([], f, indent=2)` writes: the empty JSON
array literal (with no elements, `indent=2` adds no whitespace). -/
def emptyArrayJson : String := "[]"

/-- Writing a file into the directory: `open(file_path, 'w')` followed by a
full write of `content`. -/
def writeFile (d : Dir) (name content : String) : Dir :=
  fun n => if n = name then some content else d n

/-- The body of the `for table in tables` loop (lines 40-45): if the
placeholder file does not exist, create it containing `[]`; otherwise do
nothing. -/
def processTable (d : Dir) (table : String) : Dir :=
  if d (fileName table) = none then writeFile d (fileName table) emptyArrayJson else d

/-- Effect of `backup_dir.mkdir(exist_ok=True)` (line 10): create the
directory empty when absent, keep it unchanged when present. -/
def mkdirExistOk (fs : Option Dir) : Dir :=
  match fs with
  | none => fun _ => none
  | some d => d

/-- Running the check-then-create loop over a list of table names. -/
def runTables (d : Dir) (ts : List String) : Dir :=
  ts.foldl processTable d

/-- One full run of the script on initial filesystem state `fs`: create the
directory if needed, then iterate the loop over `tables` in declared
order.  The result is the final contents of the backup directory. -/
def runScript (fs : Option Dir) : Dir :=
  runTables (mkdirExistOk fs) tables

/-- Failures a run can hit: directory creation failing, or the write of one
placeholder file failing.  A write failure records the directory contents at
the point of failure and the table whose file could not be written.  The
Python script has no try/except, so either failure aborts the run at that
exact point. -/
inductive FsError where
  | mkdirFailed : FsError
  | writeFailed (d : Dir) (table : String) : FsError

/-- How one placeholder write can go.  The source performs it in two
steps: `open(file_path, 'w', ...)`, which on success creates the file and
on failure (permission denied, invalid path) raises before any file
exists; then `json.dump([], f, indent=2)` plus the implicit flush/close,
which on failure (disk full, I/O error) raises after the file already
exists, leaving on disk whatever part of the content was flushed. -/
inductive WriteOutcome where
  | ok : WriteOutcome
  | openFail : WriteOutcome
  | dumpFail (written : Nat) : WriteOutcome

/-- Content left on disk by a failed `json.dump`/flush/close: the first
`written` characters of the intended content `[]` (possibly none). -/
def flushed (written : Nat) : String :=
  String.mk (emptyArrayJson.data.take written)

/-- The loop of lines 40-45 with write failures injected: `wr name` says
how writing file `name` would go.  A failed `open` aborts with the file
absent; a failed `json.dump`/flush/close aborts with the file present and
holding the flushed part of the content.  Either failure aborts the run
immediately, reporting the directory state reached at that point. -/
def runTablesE (wr : String → WriteOutcome) (d : Dir) : List String → Except FsError Dir
  | [] => .ok d
  | t :: ts =>
    if d (fileName t) = none then
      match wr (fileName t) with
      | .ok => runTablesE wr (writeFile d (fileName t) emptyArrayJson) ts
      | .openFail => .error (.writeFailed d t)
      | .dumpFail k =>
        .error (.writeFailed (writeFile d (fileName t) (flushed k)) t)
    else runTablesE wr d ts

/-- One full run with failures injected: `canMkdir` says whether creating
the missing directory would succeed (when the directory already exists,
`mkdir(exist_ok=True)` performs no creation and cannot fail). -/
def runScriptE (canMkdir : Bool) (wr : String → WriteOutcome) (fs : Option Dir) :
    Except FsError Dir :=
  match fs with
  | none =>
    if canMkdir then runTablesE wr (fun _ => none) tables
    else .error .mkdirFailed
  | some d => runTablesE wr d tables

/-! ### Closed form of the loop -/

/-- Closed form of the loop: a file ends up containing `[]` exactly when its
name is the placeholder name of some listed table and it did not exist
before the pass; every other file keeps its prior content. -/
theorem runTables_apply (ts : List String) (d : Dir) (n : String) :
    runTables d ts n =
      if (∃ t ∈ ts, n = fileName t) ∧ d n = none then some emptyArrayJson
      else d n := by
  induction ts generalizing d with
  | nil => simp [runTables]
  | cons t ts ih =>
    have hstep : runTables d (t :: ts) = runTables (processTable d t) ts := rfl
    rw [hstep, ih]
    by_cases hd : d (fileName t) = none
    · by_cases hn : n = fileName t
      · subst hn
        simp [processTable, writeFile, hd]
      · simp only [processTable, if_pos hd, writeFile, if_neg hn]
        by_cases hmem : ∃ u ∈ ts, n = fileName u
        · simp [hmem, hn]
        · simp [hmem, hn]
    · simp only [processTable, if_neg hd]
      by_cases hn : n = fileName t
      · subst hn
        simp [hd]
      · by_cases hmem : ∃ u ∈ ts, n = fileName u
        · simp [hmem, hn]
        · simp [hmem, hn]

/-! ### Lemmas about the failure-injected run -/

/-- When every listed placeholder file already exists, the loop performs no
write at all and succeeds with the directory unchanged, whatever writes are
permitted. -/
theorem runTablesE_ok_of_present (wr : String → WriteOutcome) (d : Dir) (ts : List String)
    (h : ∀ t ∈ ts, (d (fileName t)).isSome = true) :
    runTablesE wr d ts = .ok d := by
  induction ts with
  | nil => rfl
  | cons t ts ih =>
    have ht : (d (fileName t)).isSome = true := h t (by simp)
    have hd : ¬ d (fileName t) = none := by
      intro hnone
      rw [hnone] at ht
      exact Bool.false_ne_true ht
    simp only [runTablesE, if_neg hd]
    exact ih (fun u hu => h u (by simp [hu]))

/-- The loop never reports a directory-creation failure: its only failure
mode is a file write failing. -/
theorem runTablesE_ne_mkdirFailed (wr : String → WriteOutcome) (d : Dir) (ts : List String) :
    runTablesE wr d ts ≠ .error .mkdirFailed := by
  induction ts generalizing d with
  | nil => simp [runTablesE]
  | cons t ts ih =>
    by_cases hd : d (fileName t) = none
    · cases hw : wr (fileName t) with
      | ok =>
        simpa [runTablesE, hd, hw] using ih (writeFile d (fileName t) emptyArrayJson)
      | openFail => simp [runTablesE, hd, hw]
      | dumpFail k => simp [runTablesE, hd, hw]
    · simpa [runTablesE, hd] using ih d

/-- Characterisation of a write failure: the loop aborts at the first
listed table whose file is missing and whose write fails; the reported
directory state is the result of the pure loop over the preceding tables —
with the offending file still absent when `open` itself failed, and holding
the flushed part of the content when the failure came after `open` had
already created it. -/
theorem runTablesE_error (wr : String → WriteOutcome) (d : Dir) (ts : List String)
    (d' : Dir) (t : String)
    (h : runTablesE wr d ts = .error (.writeFailed d' t)) :
    t ∈ ts ∧
      ∃ pre suf, ts = pre ++ t :: suf ∧
        (runTables d pre) (fileName t) = none ∧
        ((wr (fileName t) = .openFail ∧ d' = runTables d pre) ∨
          (∃ k, wr (fileName t) = .dumpFail k ∧
            d' = writeFile (runTables d pre) (fileName t) (flushed k))) := by
  induction ts generalizing d with
  | nil => exact absurd h (by simp [runTablesE])
  | cons u ts ih =>
    by_cases hd : d (fileName u) = none
    · cases hw : wr (fileName u) with
      | ok =>
        rw [runTablesE, if_pos hd, hw] at h
        obtain ⟨hmem, pre, suf, hsplit, hnone, hrest⟩ :=
          ih (writeFile d (fileName u) emptyArrayJson) h
        have hcons : runTables d (u :: pre) =
            runTables (writeFile d (fileName u) emptyArrayJson) pre := by
          simp only [runTables, List.foldl_cons, processTable, if_pos hd]
        refine ⟨by simp [hmem], u :: pre, suf, by simp [hsplit], ?_, ?_⟩
        · rw [hcons]
          exact hnone
        · rw [hcons]
          exact hrest
      | openFail =>
        rw [runTablesE, if_pos hd, hw] at h
        obtain ⟨hd', ht⟩ := by simpa using h
        subst hd'
        subst ht
        exact ⟨by simp, [], ts, by simp, hd, Or.inl ⟨hw, rfl⟩⟩
      | dumpFail k =>
        rw [runTablesE, if_pos hd, hw] at h
        obtain ⟨hd', ht⟩ := by simpa using h
        subst ht
        exact ⟨by simp, [], ts, by simp, hd, Or.inr ⟨k, hw, hd'.symm⟩⟩
    · rw [runTablesE, if_neg hd] at h
      obtain ⟨hmem, pre, suf, hsplit, hnone, hrest⟩ := ih d h
      have hcons : runTables d (u :: pre) = runTables d pre := by
        simp only [runTables, List.foldl_cons, processTable, if_neg hd]
      refine ⟨by simp [hmem], u :: pre, suf, by simp [hsplit], ?_, ?_⟩
      · rw [hcons]
        exact hnone
      · rw [hcons]
        exact hrest

/-- With write permission denied on the directory, every attempted `open`
fails before creating a file, so the loop either finds every file present
and succeeds with the directory unchanged, or aborts at a missing file with
the directory still unchanged: in both cases nothing is created. -/
theorem runTablesE_noWrite (d : Dir) (ts : List String) :
    ((∀ t ∈ ts, (d (fileName t)).isSome = true) ∧
        runTablesE (fun _ => .openFail) d ts = .ok d) ∨
      (∃ t ∈ ts, d (fileName t) = none ∧
        runTablesE (fun _ => .openFail) d ts = .error (.writeFailed d t)) := by
  induction ts with
  | nil => exact Or.inl ⟨by simp, rfl⟩
  | cons t ts ih =>
    by_cases hd : d (fileName t) = none
    · refine Or.inr ⟨t, by simp, hd, ?_⟩
      simp [runTablesE, hd]
    · have hstep : runTablesE (fun _ => .openFail) d (t :: ts) =
          runTablesE (fun _ => .openFail) d ts := by
        simp [runTablesE, hd]
      rcases ih with ⟨hall, hok⟩ | ⟨u, hu, hnone, herr⟩
      · refine Or.inl ⟨?_, by rw [hstep]; exact hok⟩
        intro u hu
        rcases List.mem_cons.mp hu with h | h
        · subst h
          exact Option.isSome_iff_ne_none.mpr hd
        · exact hall u h
      · exact Or.inr ⟨u, by simp [hu], hnone, by rw [hstep]; exact herr⟩

/-! ### Claims -/

/-- C1: a run started on an empty or absent backup directory produces a
directory holding exactly the 22 placeholder files of the 22 hardcoded
(pairwise distinct) table names, each containing the JSON literal `[]`, and
nothing else. -/
theorem c1_empty_dir_run (fs : Option Dir)
    (h : ∀ n, mkdirExistOk fs n = none) :
    tables.length = 22 ∧ tables.Nodup ∧
      ∀ n, runScript fs n =
        if ∃ t ∈ tables, n = fileName t then some emptyArrayJson else none := by
  refine ⟨by decide, by decide, fun n => ?_⟩
  show runTables (mkdirExistOk fs) tables n = _
  rw [runTables_apply, h n]
  by_cases hmem : ∃ t ∈ tables, n = fileName t
  · simp [hmem]
  · simp [hmem]

/-- Witness for C1 at the concrete input `fs = none` (absent directory). -/
theorem c1_empty_dir_run_witness :
    tables.length = 22 ∧ tables.Nodup ∧
      ∀ n, runScript none n =
        if ∃ t ∈ tables, n = fileName t then some emptyArrayJson else none :=
  c1_empty_dir_run none (fun _ => rfl)

/-- C2: running the script twice in a row changes nothing on the second
run: the state after the second run equals the state after the first, and
the second run performs no file write at all (it succeeds even when every
write is forbidden) and so overwrites nothing. -/
theorem c2_idempotent (fs : Option Dir) (wr : String → WriteOutcome) :
    (∀ n, runScript (some (runScript fs)) n = runScript fs n) ∧
      runScriptE true wr (some (runScript fs)) = .ok (runScript fs) := by
  have hpresent : ∀ t ∈ tables, ((runScript fs) (fileName t)).isSome = true := by
    intro t ht
    show (runTables (mkdirExistOk fs) tables (fileName t)).isSome = true
    rw [runTables_apply]
    by_cases h0 : mkdirExistOk fs (fileName t) = none
    · have hmem : (∃ u ∈ tables, fileName t = fileName u) ∧
          mkdirExistOk fs (fileName t) = none := ⟨⟨t, ht, rfl⟩, h0⟩
      rw [if_pos hmem]
      rfl
    · by_cases hmem : (∃ u ∈ tables, fileName t = fileName u) ∧
          mkdirExistOk fs (fileName t) = none
      · exact absurd hmem.2 h0
      · rw [if_neg hmem]
        exact Option.isSome_iff_ne_none.mpr h0
  constructor
  · intro n
    show runTables (runScript fs) tables n = runScript fs n
    rw [runTables_apply]
    by_cases hc : (∃ t ∈ tables, n = fileName t) ∧ runScript fs n = none
    · exfalso
      obtain ⟨⟨t, ht, hnt⟩, hnone⟩ := hc
      have := hpresent t ht
      rw [← hnt, hnone] at this
      exact Bool.false_ne_true this
    · rw [if_neg hc]
  · exact runTablesE_ok_of_present wr (runScript fs) tables hpresent

/-- C3: a placeholder file that already exists before a run keeps its
content unchanged through the run, whatever that content is. -/
theorem c3_existing_untouched (d : Dir) (t : String) (_ht : t ∈ tables)
    (c : String) (hc : d (fileName t) = some c) :
    runScript (some d) (fileName t) = some c := by
  show runTables d tables (fileName t) = some c
  rw [runTables_apply]
  by_cases hcond : (∃ u ∈ tables, fileName t = fileName u) ∧ d (fileName t) = none
  · rw [hc] at hcond
    exact absurd hcond.2 (by simp)
  · rw [if_neg hcond]
    exact hc

/-- A concrete directory holding a single non-empty placeholder file. -/
def sampleDirOne : Dir :=
  fun n => if n = "products.json" then some "[1]" else none

/-- Witness for C3: a pre-existing `products.json` with non-empty content
`[1]` survives a run unchanged. -/
theorem c3_existing_untouched_witness :
    runScript (some sampleDirOne) (fileName "products") = some "[1]" :=
  c3_existing_untouched sampleDirOne "products" (by decide) "[1]" (by decide)

/-- C4: when exactly one listed placeholder file is missing and the other 21
are present, one run creates the missing file with content `[]` and leaves
every other file of the directory byte-for-byte untouched. -/
theorem c4_one_missing (d : Dir) (t0 : String) (h1 : t0 ∈ tables)
    (h2 : d (fileName t0) = none)
    (h3 : ∀ t ∈ tables, t ≠ t0 → (d (fileName t)).isSome = true) :
    runScript (some d) (fileName t0) = some emptyArrayJson ∧
      ∀ n, n ≠ fileName t0 → runScript (some d) n = d n := by
  constructor
  · show runTables d tables (fileName t0) = some emptyArrayJson
    rw [runTables_apply]
    exact if_pos ⟨⟨t0, h1, rfl⟩, h2⟩
  · intro n hn
    show runTables d tables n = d n
    rw [runTables_apply]
    by_cases hc : (∃ t ∈ tables, n = fileName t) ∧ d n = none
    · exfalso
      obtain ⟨⟨t, ht, hnt⟩, hdn⟩ := hc
      have htt0 : t ≠ t0 := fun h => hn (h ▸ hnt)
      have hsome := h3 t ht htt0
      rw [← hnt, hdn] at hsome
      exact Bool.false_ne_true hsome
    · exact if_neg hc

/-- A concrete directory where `products.json` is missing and every other
listed placeholder file is present (with content `[]`). -/
def sampleDirMissingOne : Dir :=
  fun n => if n = "products.json" then none else some "[]"

/-- Witness for C4 at a concrete directory missing only `products.json`. -/
theorem c4_one_missing_witness :
    runScript (some sampleDirMissingOne) (fileName "products") = some emptyArrayJson ∧
      ∀ n, n ≠ fileName "products" →
        runScript (some sampleDirMissingOne) n = sampleDirMissingOne n :=
  c4_one_missing sampleDirMissingOne "products" (by decide) (by decide) (by decide)

/-- Counterexample to C5 as stated: a mid-write failure (disk full during
`json.dump`, after `open` already created the file) aborts the run with
the offending file EXISTING — empty here — because `open(file_path, 'w')`
creates the file before `json.dump` runs, contradicting the claim's "the
file whose creation failed is not created (does not exist after the
abort)". -/
theorem c5_counterexample :
    runScriptE true (fun _ => WriteOutcome.dumpFail 0) none =
      .error (.writeFailed
        (writeFile (mkdirExistOk none) (fileName "products") (flushed 0)) "products") ∧
      (writeFile (mkdirExistOk none) (fileName "products") (flushed 0))
        (fileName "products") = some "" := by
  constructor
  · rfl
  · rfl

/-- C5 amended: a write failure aborts the run at that exact point with no
retry: the failing table is one of the listed tables, its file was missing
when the write was attempted, and the directory state at the abort is the
pure run over the tables preceding the failing one — every file created
earlier in the same run remains.  The offending file does not exist after
the abort when `open` itself failed (permission denied, invalid path); when
the failure came after `open` had created the file (disk full, I/O error
in `json.dump`/flush/close), the offending file exists and holds the
flushed part of the content `[]`. -/
theorem c5_abort_on_failure (cm : Bool) (wr : String → WriteOutcome) (fs : Option Dir)
    (d : Dir) (t : String)
    (h : runScriptE cm wr fs = .error (.writeFailed d t)) :
    t ∈ tables ∧
      ∃ pre suf, tables = pre ++ t :: suf ∧
        (runTables (mkdirExistOk fs) pre) (fileName t) = none ∧
        ((wr (fileName t) = .openFail ∧ d = runTables (mkdirExistOk fs) pre) ∨
          (∃ k, wr (fileName t) = .dumpFail k ∧
            d = writeFile (runTables (mkdirExistOk fs) pre) (fileName t) (flushed k))) := by
  cases fs with
  | some d0 => exact runTablesE_error wr d0 tables d t h
  | none =>
    cases cm with
    | true => exact runTablesE_error wr (fun _ => none) tables d t h
    | false => exact absurd h (by simp [runScriptE])

/-- Witness for amended C5: with every `open` failing on an absent
directory, the run aborts at the very first table, `products`, with
nothing created. -/
theorem c5_abort_on_failure_witness :
    "products" ∈ tables ∧
      ∃ pre suf, tables = pre ++ "products" :: suf ∧
        (runTables (mkdirExistOk none) pre) (fileName "products") = none ∧
        (((fun _ => WriteOutcome.openFail) (fileName "products") = .openFail ∧
            (fun _ => (none : Option String)) = runTables (mkdirExistOk none) pre) ∨
          (∃ k, (fun _ => WriteOutcome.openFail) (fileName "products") = .dumpFail k ∧
            (fun _ => (none : Option String)) =
              writeFile (runTables (mkdirExistOk none) pre) (fileName "products")
                (flushed k))) :=
  c5_abort_on_failure true (fun _ => WriteOutcome.openFail) none
    (fun _ => none) "products" rfl

/-- A concrete directory in which all 22 listed placeholder files are
present (each containing `[]`) and no other file exists. -/
def sampleDirFull : Dir :=
  fun n => if n ∈ tables.map fileName then some emptyArrayJson else none

/-- Counterexample to C6 as stated: on a directory that already holds all
22 placeholder files, a run with every write denied does NOT terminate with
a filesystem error — it completes successfully (no write is ever
attempted). -/
theorem c6_counterexample :
    runScriptE true (fun _ => .openFail) (some sampleDirFull) = .ok sampleDirFull ∧
      ∀ e, runScriptE true (fun _ => .openFail) (some sampleDirFull) ≠ .error e := by
  have hok : runScriptE true (fun _ => .openFail) (some sampleDirFull) = .ok sampleDirFull :=
    runTablesE_ok_of_present (fun _ => .openFail) sampleDirFull tables (by decide)
  refine ⟨hok, fun e h => ?_⟩
  rw [hok] at h
  exact Except.noConfusion h

/-- C6 amended: with write permission denied on the directory, a run never
creates a file and always leaves the directory state equal to its pre-state;
it terminates with a filesystem error precisely when at least one listed
placeholder file is missing (when all 22 are present it completes
successfully). -/
theorem c6_denied_writes (d : Dir) :
    ((∀ t ∈ tables, (d (fileName t)).isSome = true) ∧
        runScriptE true (fun _ => .openFail) (some d) = .ok d) ∨
      (∃ t ∈ tables, d (fileName t) = none ∧
        runScriptE true (fun _ => .openFail) (some d) = .error (.writeFailed d t)) :=
  runTablesE_noWrite d tables

/-- C7: the final directory state does not depend on the iteration order:
any permutation of the table list yields, from any initial state, the same
final state as the declared order. -/
theorem c7_order_independent (ts : List String) (h : ts.Perm tables)
    (fs : Option Dir) (n : String) :
    runTables (mkdirExistOk fs) ts n = runScript fs n := by
  show _ = runTables (mkdirExistOk fs) tables n
  rw [runTables_apply, runTables_apply]
  by_cases hmem : ∃ t ∈ tables, n = fileName t
  · have hmem' : ∃ t ∈ ts, n = fileName t := by
      obtain ⟨t, ht, hn⟩ := hmem
      exact ⟨t, h.mem_iff.mpr ht, hn⟩
    simp [hmem, hmem']
  · have hmem' : ¬ ∃ t ∈ ts, n = fileName t := by
      rintro ⟨t, ht, hn⟩
      exact hmem ⟨t, h.mem_iff.mp ht, hn⟩
    simp [hmem, hmem']

/-- Witness for C7 at the concrete permutation that reverses the table
list, on an absent directory, observed at `products.json`. -/
theorem c7_order_independent_witness :
    runTables (mkdirExistOk none) tables.reverse (fileName "products") =
      runScript none (fileName "products") :=
  c7_order_independent tables.reverse (List.reverse_perm tables) none
    (fileName "products")

/-- C8: on a directory that already exists, the run cannot fail at the
directory-creation step, and every file whose name is not one of the 22
placeholder names keeps its prior content. -/
theorem c8_existing_dir (d : Dir) (cm : Bool) (wr : String → WriteOutcome) :
    runScriptE cm wr (some d) ≠ .error .mkdirFailed ∧
      ∀ n, (∀ t ∈ tables, n ≠ fileName t) → runScript (some d) n = d n := by
  refine ⟨runTablesE_ne_mkdirFailed wr d tables, fun n hn => ?_⟩
  show runTables d tables n = d n
  rw [runTables_apply]
  have hc : ¬ ((∃ t ∈ tables, n = fileName t) ∧ d n = none) := by
    rintro ⟨⟨t, ht, hnt⟩, _⟩
    exact hn t ht hnt
  exact if_neg hc

/-- C9: the hardcoded table list has exactly 22 pairwise distinct names,
and the derived placeholder file names are pairwise distinct too, so each
listed table name maps to at most one placeholder file. -/
theorem c9_tables_distinct :
    tables.length = 22 ∧ tables.Nodup ∧ (tables.map fileName).Nodup :=
  ⟨by decide, by decide, by decide⟩

/-- C10: the script takes no input, so the final directory state is a
function of the initial filesystem state alone: two runs from observably
identical initial states produce identical final states. -/
theorem c10_deterministic (fs fs' : Option Dir)
    (h : ∀ n, mkdirExistOk fs n = mkdirExistOk fs' n) (n : String) :
    runScript fs n = runScript fs' n := by
  show runTables (mkdirExistOk fs) tables n = runTables (mkdirExistOk fs') tables n
  rw [runTables_apply, runTables_apply, h n]

/-- Witness for C10: an absent directory and a present-but-empty directory
are observably identical initial states and lead to the same content of
`products.json`. -/
theorem c10_deterministic_witness :
    runScript none (fileName "products") =
      runScript (some (fun _ => none)) (fileName "products") :=
  c10_deterministic none (some (fun _ => none)) (fun _ => rfl) (fileName "products")

end SaveBackupData
